import Mathlib

/-!
Verification of the Capacities API client gateway (`src/client/capacities.ts`):
the `CapacitiesClient` request pipeline (endpoint classification, header
construction, HTTP status handling, response normalization, facade request
bodies) and the fixed-window `RateLimiter`.

All definitions are shallow embeddings of the TypeScript source.  Time is a
`Nat` of milliseconds (the value of `Date.now()`); JSON values are modelled by
an inductive `Json` type; a response body is modelled by the outcome of
`response.json()` (`Option Json`, `none` meaning the parse throws).
-/

namespace Capacities

/-- A JSON value, as produced by `JSON.parse` / consumed by `JSON.stringify`.
Objects are ordered field lists, matching the order of object literals in the
source. -/
inductive Json where
  | null : Json
  | bool (b : Bool) : Json
  | num (n : Int) : Json
  | str (s : String) : Json
  | arr (xs : List Json) : Json
  | obj (fields : List (String × Json)) : Json

/-- JavaScript property access `j.k` on a parsed JSON value: `some v` when the
field exists, `none` standing for `undefined`. -/
def Json.getField (j : Json) (k : String) : Option Json :=
  match j with
  | .obj fields => fields.lookup k
  | _ => none

/-- Substring test on character lists: does `pat` occur contiguously in `s`?
Embeds JavaScript `String.prototype.includes`. -/
def includesSub (s pat : List Char) : Bool :=
  match s with
  | [] => pat.isEmpty
  | _ :: t => (s.take pat.length == pat) || includesSub t pat

/-- JavaScript `s.includes(pat)` on strings. -/
def strContains (s pat : String) : Bool :=
  includesSub s.data pat.data

/-- The three rate categories of the client
(`"general" | "search" | "weblink"`). -/
inductive EndpointType where
  | general : EndpointType
  | search : EndpointType
  | weblink : EndpointType
deriving DecidableEq, Repr

/-- `CapacitiesClient.getEndpointType`: classify a request path into its rate
category by substring match, `general` being the default. -/
def getEndpointType (endpoint : String) : EndpointType :=
  if strContains endpoint "/search" then .search
  else if strContains endpoint "/save-weblink" then .weblink
  else .general

/-- The error type thrown by the gateway (`CapacitiesAPIError`): a string
code and a human-readable message.  The optional `details` argument is never
supplied by `makeRequest`, so it is omitted here. -/
structure CapacitiesAPIError where
  code : String
  message : String
deriving DecidableEq, Repr

/-- An upstream HTTP response as observed by `makeRequest`: the status, the
`content-type` and `content-length` headers (`none` when absent), and the
outcome of `response.json()` (`none` when parsing the body throws). -/
structure HttpResponse where
  status : Nat
  contentType : Option String
  contentLength : Option String
  jsonBody : Option Json

/-- `response.ok`: status in the 2xx range. -/
def HttpResponse.ok (r : HttpResponse) : Bool :=
  200 ≤ r.status && r.status ≤ 299

/-- The synthetic success marker `{ success: true }` substituted for missing
or unparseable bodies on 2xx responses. -/
def successMarker : Json := .obj [("success", .bool true)]

/-- `contentType?.includes('application/json')` with JavaScript optional
chaining: an absent header is not JSON. -/
def contentTypeIsJson (ct : Option String) : Bool :=
  match ct with
  | none => false
  | some s => strContains s "application/json"

/-- The response-normalization path of `makeRequest`, reached only for `ok`
responses: if `content-length` is the string `'0'`, or the content type does
not indicate JSON, return the synthetic success marker without parsing;
otherwise return the parsed JSON body, falling back to the success marker when
parsing throws. -/
def normalizeResponse (r : HttpResponse) : Json :=
  if r.contentLength = some "0" || !contentTypeIsJson r.contentType then
    successMarker
  else
    match r.jsonBody with
    | some j => j
    | none => successMarker

/-- The status-handling and normalization logic of `makeRequest`, applied to
the received response: non-`ok` statuses throw a `CapacitiesAPIError`
(429 → rate limit, 401 → authentication, otherwise a generic API error
carrying the status in its message); `ok` responses are normalized. -/
def handleResponse (r : HttpResponse) : Except CapacitiesAPIError Json :=
  if !r.ok then
    if r.status = 429 then
      .error ⟨"RATE_LIMIT_EXCEEDED", "Rate limit exceeded"⟩
    else if r.status = 401 then
      .error ⟨"AUTHENTICATION_FAILED", "Invalid API token"⟩
    else
      .error ⟨"API_ERROR", "API error: " ++ toString r.status⟩
  else
    .ok (normalizeResponse r)

/-- The headers object built by `makeRequest`:
`{ 'Authorization': Bearer <token>, 'Content-Type': 'application/json',
...options.headers }`.  JavaScript spread semantics: a key appearing in
`extra` overrides the base entry of the same name. -/
def makeRequestHeaders (apiToken : String) (extra : List (String × String)) :
    List (String × String) :=
  (([("Authorization", "Bearer " ++ apiToken),
     ("Content-Type", "application/json")].filter
      (fun p => !(extra.any (fun q => q.1 == p.1))))) ++ extra

/-- The observable effect of `makeRequest` on endpoint `endpoint` with extra
headers `extra`, given that the upstream answers with `r`: the headers of the
outgoing call, and the returned value or thrown error. -/
def makeRequest (apiToken : String) (extra : List (String × String))
    (r : HttpResponse) :
    List (String × String) × Except CapacitiesAPIError Json :=
  (makeRequestHeaders apiToken extra, handleResponse r)

/-- JavaScript `a || b` for an optional string, where the empty string is
falsy. -/
def jsOrStr (a : Option String) (b : String) : String :=
  match a with
  | none => b
  | some s => if s = "" then b else s

/-- JavaScript `a || b` for an optional array (an array, even empty, is
truthy; `undefined`/`null` are falsy). -/
def jsOrList (a : Option (List String)) (b : List String) : List String :=
  match a with
  | none => b
  | some xs => xs

/-- A JSON object field whose value may be `undefined`: `JSON.stringify`
omits such fields from the serialized body. -/
def optField (k : String) (v : Option Json) : List (String × Json) :=
  match v with
  | none => []
  | some j => [(k, j)]

/-- The `SearchOptions` argument of `searchContent`; optional members are
`Option`s (`none` = omitted). -/
structure SearchOptions where
  query : String
  spaceIds : List String
  mode : Option String
  structureIds : Option (List String)
deriving Repr

/-- The serialized request body of `searchContent` (the fields of the object
literal passed to `JSON.stringify`, with `undefined`-valued fields omitted):
`searchTerm`, `spaceIds`, `mode` (defaulting to `"fullText"` via `||`), and
`filterStructureIds` only when `structureIds` was supplied. -/
def searchBody (o : SearchOptions) : List (String × Json) :=
  [("searchTerm", .str o.query),
   ("spaceIds", .arr (o.spaceIds.map .str)),
   ("mode", .str (jsOrStr o.mode "fullText"))] ++
  optField "filterStructureIds" (o.structureIds.map (fun ids => .arr (ids.map .str)))

/-- The `SaveWeblinkOptions` argument of `saveWeblink`. -/
structure SaveWeblinkOptions where
  spaceId : String
  url : String
  title : Option String
  description : Option String
  tags : Option (List String)
  notes : Option String
deriving Repr

/-- The serialized request body of `saveWeblink`: `spaceId`, `url`,
`titleOverwrite` (from `title`), `descriptionOverwrite` (from `description`),
`tags` (defaulting to `[]` via `||`, hence always present), and `mdText`
(from `notes`); `undefined`-valued fields are omitted by `JSON.stringify`. -/
def saveWeblinkBody (o : SaveWeblinkOptions) : List (String × Json) :=
  [("spaceId", .str o.spaceId), ("url", .str o.url)] ++
  optField "titleOverwrite" (o.title.map .str) ++
  optField "descriptionOverwrite" (o.description.map .str) ++
  [("tags", .arr ((jsOrList o.tags []).map .str))] ++
  optField "mdText" (o.notes.map .str)

/-- `getSpaces` unwraps the `spaces` field of the response
(`response.spaces`); `none` stands for JavaScript `undefined`. -/
def getSpacesUnwrap (response : Json) : Option Json :=
  response.getField "spaces"

/-- `searchContent` unwraps the `results` field of the response
(`response.results`); `none` stands for JavaScript `undefined`. -/
def searchContentUnwrap (response : Json) : Option Json :=
  response.getField "results"

/-! ### The rate limiter -/

/-- One entry of `RateLimiter.limits`: the per-window budget and the window
length in milliseconds. -/
structure RateLimit where
  maxRequests : Nat
  windowMs : Nat
deriving DecidableEq, Repr

/-- `RateLimiter.limits`: the static per-category configuration. -/
def limits : EndpointType → RateLimit
  | .general => ⟨5, 60000⟩
  | .search => ⟨120, 60000⟩
  | .weblink => ⟨10, 60000⟩

/-- One entry of `RateLimiter.windows`: requests used in the current window
and the time at which the window expires. -/
structure RateWindow where
  requests : Nat
  resetTime : Nat
deriving DecidableEq, Repr

/-- The `RateLimiter.windows` map; `none` means no window exists yet for the
category. -/
def RLState := EndpointType → Option RateWindow

/-- Update the windows map at one category (`this.windows.set`). -/
def RLState.set (s : RLState) (e : EndpointType) (w : RateWindow) : RLState :=
  fun e' => if e' = e then some w else s e'

/-- The windows map at process start: empty. -/
def RLState.init : RLState := fun _ => none

/-- Result of one pass through the body of `waitForSlot` at time `now`:
either the slot is granted and the function returns, or the caller must sleep
until `wakeAt` (the current window's `resetTime`) and retry. -/
inductive AcquireOutcome where
  | granted : AcquireOutcome
  | blocked (wakeAt : Nat) : AcquireOutcome
deriving DecidableEq, Repr

/-- One pass through the body of `RateLimiter.waitForSlot` with `Date.now()`
equal to `now`: no window or an expired window installs a fresh window with
`requests = 1` and grants; a window with spare budget is incremented and
grants; an exhausted window blocks until its `resetTime`. -/
def tryAcquire (s : RLState) (e : EndpointType) (now : Nat) :
    RLState × AcquireOutcome :=
  let limit := limits e
  match s e with
  | none => (s.set e ⟨1, now + limit.windowMs⟩, .granted)
  | some w =>
    if now ≥ w.resetTime then
      (s.set e ⟨1, now + limit.windowMs⟩, .granted)
    else if w.requests ≥ limit.maxRequests then
      (s, .blocked w.resetTime)
    else
      (s.set e ⟨w.requests + 1, w.resetTime⟩, .granted)

/-- The full `waitForSlot` call of a single (sequential) caller arriving at
time `now`: returns the updated windows map and the time at which the call
resolves.  When the first pass blocks, the caller sleeps until the window's
`resetTime` and re-runs the check from scratch (the recursive
`return this.waitForSlot(endpoint)`); at that wake time `now ≥ resetTime`
holds, so the second pass always grants. -/
def waitForSlot (s : RLState) (e : EndpointType) (now : Nat) : RLState × Nat :=
  match tryAcquire s e now with
  | (s', .granted) => (s', now)
  | (_, .blocked wakeAt) => ((tryAcquire s e wakeAt).1, wakeAt)

/-- Run a sequence of `waitForSlot` calls (category and arrival time each),
returning the final windows map. -/
def runCalls (s : RLState) : List (EndpointType × Nat) → RLState
  | [] => s
  | (e, t) :: rest => runCalls (waitForSlot s e t).1 rest

/-- Run a sequence of `waitForSlot` calls against one fixed category,
collecting each call's resolution time. -/
def runTimes (s : RLState) (e : EndpointType) : List Nat → RLState × List Nat
  | [] => (s, [])
  | t :: rest =>
    let (s', done) := waitForSlot s e t
    let (s'', times) := runTimes s' e rest
    (s'', done :: times)

/-! ### Claims about classification, status handling and normalization -/

/-- C6: Rate-category classification is a total function on request paths:
every path maps to exactly one of search, weblink ("link-save") or general,
with general as the default; every path containing `"/search"` routes to the
search category, and every path containing `"/save-weblink"` but not
`"/search"` routes to the weblink category. -/
theorem getEndpointType_total_classification (p : String) :
    (getEndpointType p = .search ∨ getEndpointType p = .weblink ∨
      getEndpointType p = .general) ∧
    (strContains p "/search" = true → getEndpointType p = .search) ∧
    (strContains p "/save-weblink" = true → strContains p "/search" = false →
      getEndpointType p = .weblink) ∧
    (strContains p "/search" = false → strContains p "/save-weblink" = false →
      getEndpointType p = .general) := by
  unfold getEndpointType
  by_cases h1 : strContains p "/search" = true
  · simp [h1]
  · by_cases h2 : strContains p "/save-weblink" = true <;>
      simp_all [Bool.not_eq_true]

theorem getEndpointType_total_classification_witness :
    getEndpointType "/search?q=x" = .search ∧ getEndpointType "/save-weblink" = .weblink :=
  ⟨(getEndpointType_total_classification "/search?q=x").2.1 (by decide),
   (getEndpointType_total_classification "/save-weblink").2.2.1 (by decide) (by decide)⟩

/-- C4: HTTP status mapping of `makeRequest` is exhaustive and exclusive:
429 fails with the rate-limit error regardless of the body, 401 with the
authentication error, any other status in [400,599] with the generic API
error carrying the status, and a 2xx status never raises a classification
error but is handed to the normalizer. -/
theorem handleResponse_status_classification (r : HttpResponse) :
    (r.status = 429 →
      handleResponse r = .error ⟨"RATE_LIMIT_EXCEEDED", "Rate limit exceeded"⟩) ∧
    (r.status = 401 →
      handleResponse r = .error ⟨"AUTHENTICATION_FAILED", "Invalid API token"⟩) ∧
    (400 ≤ r.status → r.status ≤ 599 → r.status ≠ 429 → r.status ≠ 401 →
      handleResponse r = .error ⟨"API_ERROR", "API error: " ++ toString r.status⟩) ∧
    (200 ≤ r.status → r.status ≤ 299 →
      handleResponse r = .ok (normalizeResponse r)) := by
  refine ⟨fun h => ?_, fun h => ?_, fun h4 h5 hne9 hne1 => ?_, fun h2 h3 => ?_⟩
  · have hok : r.ok = false := by simp [HttpResponse.ok, h]
    simp [handleResponse, hok, h]
  · have hok : r.ok = false := by simp [HttpResponse.ok, h]
    simp [handleResponse, hok, h]
  · have hok : r.ok = false := by simp [HttpResponse.ok]; omega
    simp [handleResponse, hok, hne9, hne1]
  · have hok : r.ok = true := by simp [HttpResponse.ok]; omega
    simp [handleResponse, hok]

theorem handleResponse_status_classification_witness :
    handleResponse ⟨429, none, none, none⟩ =
      .error ⟨"RATE_LIMIT_EXCEEDED", "Rate limit exceeded"⟩ ∧
    handleResponse ⟨401, none, none, none⟩ =
      .error ⟨"AUTHENTICATION_FAILED", "Invalid API token"⟩ ∧
    handleResponse ⟨503, none, none, none⟩ =
      .error ⟨"API_ERROR", "API error: 503"⟩ ∧
    handleResponse ⟨204, none, none, none⟩ =
      .ok (normalizeResponse ⟨204, none, none, none⟩) :=
  ⟨(handleResponse_status_classification ⟨429, none, none, none⟩).1 rfl,
   (handleResponse_status_classification ⟨401, none, none, none⟩).2.1 rfl,
   (handleResponse_status_classification ⟨503, none, none, none⟩).2.2.1
     (by decide) (by decide) (by decide) (by decide),
   (handleResponse_status_classification ⟨204, none, none, none⟩).2.2.2
     (by decide) (by decide)⟩

/-- C5: the normalizer is total (never throws): declared content length
`'0'`, a non-JSON content type, or a failed JSON parse all yield the
synthetic success marker `{success: true}`; otherwise the parsed JSON value
is returned as-is, with no further validation. -/
theorem normalizeResponse_lenient (r : HttpResponse) :
    (r.contentLength = some "0" → normalizeResponse r = successMarker) ∧
    (contentTypeIsJson r.contentType = false → normalizeResponse r = successMarker) ∧
    (r.jsonBody = none → normalizeResponse r = successMarker) ∧
    (∀ j, r.jsonBody = some j → r.contentLength ≠ some "0" →
      contentTypeIsJson r.contentType = true → normalizeResponse r = j) := by
  refine ⟨fun h => ?_, fun h => ?_, fun h => ?_, fun j hj hcl hct => ?_⟩ <;>
    simp only [normalizeResponse]
  · rw [if_pos (by simp [h])]
  · rw [if_pos (by simp [h])]
  · split
    · rfl
    · rw [h]
  · rw [if_neg (by simp [hcl, hct]), hj]

theorem normalizeResponse_lenient_witness :
    normalizeResponse ⟨200, some "application/json", some "0", none⟩ = successMarker ∧
    normalizeResponse ⟨200, some "text/html", none, none⟩ = successMarker ∧
    normalizeResponse ⟨200, some "application/json", some "2", some (.obj [])⟩ =
      .obj [] :=
  ⟨(normalizeResponse_lenient ⟨200, some "application/json", some "0", none⟩).1 rfl,
   (normalizeResponse_lenient ⟨200, some "text/html", none, none⟩).2.1 (by decide),
   (normalizeResponse_lenient ⟨200, some "application/json", some "2", some (.obj [])⟩).2.2.2
     (.obj []) rfl (by simp) (by decide)⟩

/-- C8: the `searchContent` request body uses the upstream field names:
`searchTerm` carries the query, `spaceIds` the space list, `mode` defaults to
`"fullText"` when omitted, and `filterStructureIds` is present exactly when
`structureIds` was supplied. -/
theorem searchBody_wire_format (o : SearchOptions) (hmode : o.mode = none) :
    (searchBody o).lookup "searchTerm" = some (.str o.query) ∧
    (searchBody o).lookup "spaceIds" = some (.arr (o.spaceIds.map .str)) ∧
    (searchBody o).lookup "mode" = some (.str "fullText") ∧
    ((searchBody o).lookup "filterStructureIds" ≠ none ↔ o.structureIds ≠ none) := by
  cases hstruct : o.structureIds <;>
    simp [searchBody, optField, jsOrStr, hmode, hstruct, List.lookup]

theorem searchBody_wire_format_witness :
    (searchBody ⟨"x", ["s1"], none, none⟩).lookup "searchTerm" = some (.str "x") ∧
    (searchBody ⟨"x", ["s1"], none, none⟩).lookup "mode" = some (.str "fullText") :=
  ⟨(searchBody_wire_format ⟨"x", ["s1"], none, none⟩ rfl).1,
   (searchBody_wire_format ⟨"x", ["s1"], none, none⟩ rfl).2.2.1⟩

/-- C9: the `saveWeblink` request body always carries a `tags` field that is
a list — the empty list when the `tags` argument was omitted — and `title`,
`description` and `notes` are translated to the upstream names
`titleOverwrite`, `descriptionOverwrite` and `mdText`. -/
theorem saveWeblinkBody_wire_format (o : SaveWeblinkOptions) :
    (saveWeblinkBody o).lookup "tags" =
      some (.arr ((o.tags.getD []).map .str)) ∧
    (o.tags = none → (saveWeblinkBody o).lookup "tags" = some (.arr [])) ∧
    (saveWeblinkBody o).lookup "titleOverwrite" = o.title.map .str ∧
    (saveWeblinkBody o).lookup "descriptionOverwrite" = o.description.map .str ∧
    (saveWeblinkBody o).lookup "mdText" = o.notes.map .str := by
  cases ht : o.title <;> cases hd : o.description <;> cases hn : o.notes <;>
    cases htags : o.tags <;>
    simp [saveWeblinkBody, optField, jsOrList, ht, hd, hn, htags, List.lookup]

theorem saveWeblinkBody_wire_format_witness :
    (saveWeblinkBody ⟨"sp", "http://u", none, none, none, none⟩).lookup "tags" =
      some (.arr []) :=
  (saveWeblinkBody_wire_format ⟨"sp", "http://u", none, none, none, none⟩).2.1 rfl

/-- C10: there is a 2xx upstream response (here: declared `content-length`
of zero) for which the gateway substitutes the synthetic success marker, so
the subsequent unwrap of the `results` (resp. `spaces`) envelope field by
`searchContent` (resp. `getSpaces`) yields `undefined` rather than a list. -/
theorem normalizer_masks_envelope_unwrap :
    (⟨200, some "application/json", some "0", none⟩ : HttpResponse).ok = true ∧
    handleResponse ⟨200, some "application/json", some "0", none⟩ =
      .ok successMarker ∧
    searchContentUnwrap successMarker = none ∧
    getSpacesUnwrap successMarker = none :=
  ⟨rfl, rfl, rfl, rfl⟩

/-- C7: the outgoing call carries `Authorization: Bearer <token>` whenever
the per-call headers do not override it (no caller in the client ever does),
and the returned value or thrown error is identical for any two token values:
error messages never depend on the token. -/
theorem makeRequest_auth_header_and_token_confidential (t1 t2 : String)
    (extra : List (String × String)) (r : HttpResponse)
    (hextra : ∀ p ∈ extra, p.1 ≠ "Authorization") :
    ("Authorization", "Bearer " ++ t1) ∈ (makeRequest t1 extra r).1 ∧
    (makeRequest t1 extra r).2 = (makeRequest t2 extra r).2 := by
  constructor
  · have hany : extra.any (fun q => q.1 == "Authorization") = false := by
      rw [List.any_eq_false]
      intro q hq
      simpa using hextra q hq
    simp [makeRequest, makeRequestHeaders, List.mem_filter, hany]
  · rfl

theorem makeRequest_auth_header_and_token_confidential_witness :
    ("Authorization", "Bearer " ++ "tokA") ∈
      (makeRequest "tokA" [] ⟨500, none, none, none⟩).1 ∧
    (makeRequest "tokA" [] ⟨500, none, none, none⟩).2 =
      (makeRequest "tokB" [] ⟨500, none, none, none⟩).2 :=
  makeRequest_auth_header_and_token_confidential "tokA" "tokB" []
    ⟨500, none, none, none⟩ (by simp)

/-! ### Rate limiter lemmas -/

theorem RLState.set_self (s : RLState) (e : EndpointType) (w : RateWindow) :
    (s.set e w) e = some w := by
  simp [RLState.set]

theorem limits_pos (e : EndpointType) :
    1 ≤ (limits e).maxRequests ∧ 1 ≤ (limits e).windowMs := by
  cases e <;> simp [limits]

/-- The windows-map invariant: every existing window's used-count stays
within its category's budget. -/
def RLInvariant (s : RLState) : Prop :=
  ∀ e w, s e = some w → w.requests ≤ (limits e).maxRequests

theorem tryAcquire_invariant (s : RLState) (e : EndpointType) (now : Nat)
    (hs : RLInvariant s) : RLInvariant (tryAcquire s e now).1 := by
  intro e' w' hw'
  unfold tryAcquire at hw'
  revert hw'
  cases hse : s e with
  | none =>
    simp only [hse, RLState.set]
    split
    · rintro ⟨⟩
      exact (limits_pos e').1
    · exact fun hw' => hs e' w' hw'
  | some w =>
    simp only [hse]
    split
    · simp only [RLState.set]
      split
      · rintro ⟨⟩
        exact (limits_pos e').1
      · exact fun hw' => hs e' w' hw'
    · split
      · exact fun hw' => hs e' w' hw'
      · simp only [RLState.set]
        split
        · rename_i he
          rintro ⟨⟩
          subst he
          dsimp only
          omega
        · exact fun hw' => hs e' w' hw'

theorem waitForSlot_invariant (s : RLState) (e : EndpointType) (now : Nat)
    (hs : RLInvariant s) : RLInvariant (waitForSlot s e now).1 := by
  unfold waitForSlot
  rcases h : tryAcquire s e now with ⟨s', o⟩
  cases o with
  | granted =>
    have := tryAcquire_invariant s e now hs
    rw [h] at this
    exact this
  | blocked wakeAt => exact tryAcquire_invariant s e wakeAt hs

theorem runCalls_invariant (calls : List (EndpointType × Nat)) :
    ∀ s : RLState, RLInvariant s → RLInvariant (runCalls s calls) := by
  induction calls with
  | nil => exact fun s hs => hs
  | cons c rest ih =>
    intro s hs
    exact ih _ (waitForSlot_invariant s c.1 c.2 hs)

theorem tryAcquire_none (s : RLState) (e : EndpointType) (now : Nat)
    (h : s e = none) :
    tryAcquire s e now = (s.set e ⟨1, now + (limits e).windowMs⟩, .granted) := by
  simp [tryAcquire, h]

theorem tryAcquire_expired (s : RLState) (e : EndpointType) (now : Nat)
    (w : RateWindow) (h : s e = some w) (hex : w.resetTime ≤ now) :
    tryAcquire s e now = (s.set e ⟨1, now + (limits e).windowMs⟩, .granted) := by
  simp [tryAcquire, h, hex]

theorem tryAcquire_increment (s : RLState) (e : EndpointType) (now : Nat)
    (w : RateWindow) (h : s e = some w) (hlt : now < w.resetTime)
    (hbud : w.requests < (limits e).maxRequests) :
    tryAcquire s e now = (s.set e ⟨w.requests + 1, w.resetTime⟩, .granted) := by
  simp [tryAcquire, h, Nat.not_le.mpr hlt, Nat.not_le.mpr hbud]

theorem tryAcquire_full (s : RLState) (e : EndpointType) (now : Nat)
    (w : RateWindow) (h : s e = some w) (hlt : now < w.resetTime)
    (hfull : (limits e).maxRequests ≤ w.requests) :
    tryAcquire s e now = (s, .blocked w.resetTime) := by
  simp [tryAcquire, h, Nat.not_le.mpr hlt, hfull]

theorem waitForSlot_none (s : RLState) (e : EndpointType) (now : Nat)
    (h : s e = none) :
    waitForSlot s e now = (s.set e ⟨1, now + (limits e).windowMs⟩, now) := by
  unfold waitForSlot
  rw [tryAcquire_none s e now h]

theorem waitForSlot_expired (s : RLState) (e : EndpointType) (now : Nat)
    (w : RateWindow) (h : s e = some w) (hex : w.resetTime ≤ now) :
    waitForSlot s e now = (s.set e ⟨1, now + (limits e).windowMs⟩, now) := by
  unfold waitForSlot
  rw [tryAcquire_expired s e now w h hex]

theorem waitForSlot_increment (s : RLState) (e : EndpointType) (now : Nat)
    (w : RateWindow) (h : s e = some w) (hlt : now < w.resetTime)
    (hbud : w.requests < (limits e).maxRequests) :
    waitForSlot s e now = (s.set e ⟨w.requests + 1, w.resetTime⟩, now) := by
  unfold waitForSlot
  rw [tryAcquire_increment s e now w h hlt hbud]

/-- The spare-budget run: starting from a live window `⟨k, R⟩` with enough
budget for all of `ts`, every call resolves at its own arrival time and the
counter advances by one per call. -/
theorem runTimes_spare (e : EndpointType) :
    ∀ (ts : List Nat) (s : RLState) (k R : Nat), s e = some ⟨k, R⟩ →
      k + ts.length ≤ (limits e).maxRequests → (∀ t ∈ ts, t < R) →
      (runTimes s e ts).2 = ts ∧
      (runTimes s e ts).1 e = some ⟨k + ts.length, R⟩ := by
  intro ts
  induction ts with
  | nil =>
    intro s k R h _ _
    exact ⟨rfl, by simpa using h⟩
  | cons t rest ih =>
    intro s k R h hlen hin
    have hbud : k < (limits e).maxRequests := by
      simp only [List.length_cons] at hlen
      omega
    have hlt : t < R := hin t (by simp)
    have hw : waitForSlot s e t = (s.set e ⟨k + 1, R⟩, t) :=
      waitForSlot_increment s e t ⟨k, R⟩ h hlt hbud
    have hset : (s.set e ⟨k + 1, R⟩) e = some ⟨k + 1, R⟩ := RLState.set_self s e _
    obtain ⟨h1, h2⟩ := ih (s.set e ⟨k + 1, R⟩) (k + 1) R hset
      (by simp only [List.length_cons] at hlen; omega)
      (fun t' ht' => hin t' (by simp [ht']))
    rcases hr : runTimes (s.set e ⟨k + 1, R⟩) e rest with ⟨s2, times⟩
    rw [hr] at h1 h2
    dsimp only at h1 h2
    simp only [runTimes, hw, hr]
    refine ⟨by rw [h1], ?_⟩
    simpa [Nat.add_comm, Nat.add_assoc, Nat.add_left_comm] using h2

/-- C2: `waitForSlot` resolves immediately whenever budget is available — a
missing or expired window is replaced by a fresh one with `requests = 1` and
`resetTime = now + windowMs`, a window with spare budget is incremented, and
in both cases the call resolves at its arrival time; consequently a sequence
of `N ≤ maxRequests` calls issued within one window all resolve at their own
arrival times (no delay). -/
theorem acquireSlot_immediate_when_budget (e : EndpointType) :
    (∀ (s : RLState) (now : Nat), s e = none →
      waitForSlot s e now = (s.set e ⟨1, now + (limits e).windowMs⟩, now)) ∧
    (∀ (s : RLState) (now : Nat) (w : RateWindow), s e = some w →
      w.resetTime ≤ now →
      waitForSlot s e now = (s.set e ⟨1, now + (limits e).windowMs⟩, now)) ∧
    (∀ (s : RLState) (now : Nat) (w : RateWindow), s e = some w →
      now < w.resetTime → w.requests < (limits e).maxRequests →
      waitForSlot s e now = (s.set e ⟨w.requests + 1, w.resetTime⟩, now)) ∧
    (∀ (s : RLState) (t0 : Nat) (ts : List Nat), s e = none →
      ts.length + 1 ≤ (limits e).maxRequests →
      (∀ t ∈ ts, t0 ≤ t ∧ t < t0 + (limits e).windowMs) →
      (runTimes s e (t0 :: ts)).2 = t0 :: ts) := by
  refine ⟨fun s now => waitForSlot_none s e now,
    fun s now w => waitForSlot_expired s e now w,
    fun s now w => waitForSlot_increment s e now w, ?_⟩
  intro s t0 ts hnone hlen hin
  have hw : waitForSlot s e t0 = (s.set e ⟨1, t0 + (limits e).windowMs⟩, t0) :=
    waitForSlot_none s e t0 hnone
  have hset : (s.set e ⟨1, t0 + (limits e).windowMs⟩) e =
      some ⟨1, t0 + (limits e).windowMs⟩ := RLState.set_self s e _
  obtain ⟨h1, _⟩ := runTimes_spare e ts (s.set e ⟨1, t0 + (limits e).windowMs⟩)
    1 (t0 + (limits e).windowMs) hset (by omega) (fun t ht => (hin t ht).2)
  rcases hr : runTimes (s.set e ⟨1, t0 + (limits e).windowMs⟩) e ts with ⟨s2, times⟩
  rw [hr] at h1
  dsimp only at h1
  simp only [runTimes, hw, hr]
  rw [h1]

theorem acquireSlot_immediate_when_budget_witness :
    (runTimes RLState.init .general [0, 1, 2, 3, 4]).2 = [0, 1, 2, 3, 4] :=
  (acquireSlot_immediate_when_budget .general).2.2.2 RLState.init 0 [1, 2, 3, 4]
    rfl (by decide) (by decide)

/-- C3: a call arriving while the window is live and exhausted does not
resolve before `resetTime`: the first pass blocks with wake-up time exactly
`resetTime`, the call resolves at `resetTime`, and upon waking the admission
check is re-run from scratch (`tryAcquire` again), which installs a fresh
window counting this caller. -/
theorem acquireSlot_blocks_until_reset (s : RLState) (e : EndpointType)
    (now : Nat) (w : RateWindow) (hw : s e = some w) (hnow : now < w.resetTime)
    (hfull : (limits e).maxRequests ≤ w.requests) :
    tryAcquire s e now = (s, .blocked w.resetTime) ∧
    (waitForSlot s e now).2 = w.resetTime ∧
    waitForSlot s e now = ((tryAcquire s e w.resetTime).1, w.resetTime) ∧
    tryAcquire s e w.resetTime =
      (s.set e ⟨1, w.resetTime + (limits e).windowMs⟩, .granted) := by
  have hb : tryAcquire s e now = (s, .blocked w.resetTime) :=
    tryAcquire_full s e now w hw hnow hfull
  have hwake : tryAcquire s e w.resetTime =
      (s.set e ⟨1, w.resetTime + (limits e).windowMs⟩, .granted) :=
    tryAcquire_expired s e w.resetTime w hw (Nat.le_refl _)
  refine ⟨hb, ?_, ?_, hwake⟩ <;> · unfold waitForSlot; rw [hb]

theorem acquireSlot_blocks_until_reset_witness :
    (waitForSlot (RLState.init.set .general ⟨5, 60000⟩) .general 10).2 = 60000 :=
  (acquireSlot_blocks_until_reset (RLState.init.set .general ⟨5, 60000⟩) .general
    10 ⟨5, 60000⟩ (RLState.set_self RLState.init .general _) (by decide)
    (by decide)).2.1

/-! ### Window accounting: admissions per fixed window -/

/-- Number of admission times in `log` falling inside `[lo, hi)`. -/
def countIn (log : List Nat) (lo hi : Nat) : Nat :=
  (log.filter (fun t => decide (lo ≤ t ∧ t < hi))).length

theorem countIn_append (l1 l2 : List Nat) (lo hi : Nat) :
    countIn (l1 ++ l2) lo hi = countIn l1 lo hi + countIn l2 lo hi := by
  simp [countIn, List.filter_append]

theorem countIn_singleton_in (t lo hi : Nat) (h1 : lo ≤ t) (h2 : t < hi) :
    countIn [t] lo hi = 1 := by
  simp [countIn, h1, h2]

theorem countIn_all_below (log : List Nat) (lo hi : Nat)
    (h : ∀ l ∈ log, l < lo) : countIn log lo hi = 0 := by
  simp only [countIn, List.length_eq_zero]
  rw [List.filter_eq_nil_iff]
  intro l hl
  have := h l hl
  simp
  omega

/-- The accounting invariant for category `e` at a point where every future
arrival happens no earlier than clock `c`: the live window (if any) was
created at `resetTime - windowMs ≤ c`, its admission log entries all precede
`resetTime`, and the admissions falling in the window's span are counted
exactly by `requests`. -/
def WinAccount (e : EndpointType) (s : RLState) (log : List Nat) (c : Nat) :
    Prop :=
  (s e = none → log = []) ∧
  (∀ w, s e = some w →
    (limits e).windowMs ≤ w.resetTime ∧
    w.resetTime - (limits e).windowMs ≤ c ∧
    (∀ l ∈ log, l < w.resetTime) ∧
    countIn log (w.resetTime - (limits e).windowMs) w.resetTime = w.requests)

/-- Sequential arrivals for category `e` starting no earlier than clock `c`:
each later call arrives no earlier than the previous call's resolution time
(`Date.now()` is monotone across a sequential caller's awaits). -/
def ArrivalsFrom (e : EndpointType) : RLState → Nat → List Nat → Prop
  | _, _, [] => True
  | s, c, t :: rest =>
      c ≤ t ∧ ArrivalsFrom e (waitForSlot s e t).1 (waitForSlot s e t).2 rest

/-- One `waitForSlot` call preserves the accounting invariant, logging its
resolution time as the admission and advancing the clock to it. -/
theorem waitForSlot_account (e : EndpointType) (s : RLState) (log : List Nat)
    (c t : Nat) (hacc : WinAccount e s log c) (hct : c ≤ t) :
    WinAccount e (waitForSlot s e t).1 (log ++ [(waitForSlot s e t).2])
      (waitForSlot s e t).2 := by
  have hW : 1 ≤ (limits e).windowMs := (limits_pos e).2
  cases hse : s e with
  | none =>
    have hlog : log = [] := hacc.1 hse
    subst hlog
    rw [waitForSlot_none s e t hse]
    dsimp only
    refine ⟨fun h => ?_, fun w' hw' => ?_⟩
    · rw [RLState.set_self] at h
      cases h
    · rw [RLState.set_self] at hw'
      injection hw' with hw'
      subst hw'
      dsimp only
      refine ⟨by omega, by omega, ?_, ?_⟩
      · intro l hl
        simp at hl
        omega
      · simp only [List.nil_append]
        rw [countIn_singleton_in] <;> omega
  | some w =>
    obtain ⟨hWR, hcr, hbelow, hcount⟩ := hacc.2 w hse
    by_cases hex : w.resetTime ≤ t
    · rw [waitForSlot_expired s e t w hse hex]
      dsimp only
      refine ⟨fun h => ?_, fun w' hw' => ?_⟩
      · rw [RLState.set_self] at h
        cases h
      · rw [RLState.set_self] at hw'
        injection hw' with hw'
        subst hw'
        dsimp only
        refine ⟨by omega, by omega, ?_, ?_⟩
        · intro l hl
          rcases List.mem_append.mp hl with hl | hl
          · have := hbelow l hl
            omega
          · simp at hl
            omega
        · rw [countIn_append, countIn_all_below log _ _
              (fun l hl => by have := hbelow l hl; omega),
            countIn_singleton_in] <;> omega
    · have hlt : t < w.resetTime := Nat.lt_of_not_ge hex
      by_cases hbud : w.requests < (limits e).maxRequests
      · rw [waitForSlot_increment s e t w hse hlt hbud]
        dsimp only
        refine ⟨fun h => ?_, fun w' hw' => ?_⟩
        · rw [RLState.set_self] at h
          cases h
        · rw [RLState.set_self] at hw'
          injection hw' with hw'
          subst hw'
          dsimp only
          refine ⟨by omega, by omega, ?_, ?_⟩
          · intro l hl
            rcases List.mem_append.mp hl with hl | hl
            · exact hbelow l hl
            · simp at hl
              omega
          · rw [countIn_append, hcount, countIn_singleton_in] <;> omega
      · have hfull : (limits e).maxRequests ≤ w.requests := Nat.le_of_not_lt hbud
        have h3 := acquireSlot_blocks_until_reset s e t w hse hlt hfull
        rw [h3.2.2.1, h3.2.2.2]
        dsimp only
        refine ⟨fun h => ?_, fun w' hw' => ?_⟩
        · rw [RLState.set_self] at h
          cases h
        · rw [RLState.set_self] at hw'
          injection hw' with hw'
          subst hw'
          dsimp only
          refine ⟨by omega, by omega, ?_, ?_⟩
          · intro l hl
            rcases List.mem_append.mp hl with hl | hl
            · have := hbelow l hl
              omega
            · simp at hl
              omega
          · rw [countIn_append, countIn_all_below log _ _
                (fun l hl => by have := hbelow l hl; omega),
              countIn_singleton_in] <;> omega

/-- Running any sequential arrival list preserves the accounting invariant,
appending all resolution times to the admission log. -/
theorem runTimes_account (e : EndpointType) :
    ∀ (ts : List Nat) (s : RLState) (log : List Nat) (c : Nat),
      WinAccount e s log c → ArrivalsFrom e s c ts →
      ∃ c', WinAccount e (runTimes s e ts).1 (log ++ (runTimes s e ts).2) c' := by
  intro ts
  induction ts with
  | nil =>
    intro s log c hacc _
    exact ⟨c, by simpa [runTimes] using hacc⟩
  | cons t rest ih =>
    intro s log c hacc harr
    obtain ⟨hct, hrest⟩ := harr
    have hstep := waitForSlot_account e s log c t hacc hct
    rcases hw : waitForSlot s e t with ⟨s1, d⟩
    rw [hw] at hstep hrest
    dsimp only at hstep hrest
    obtain ⟨c', hfin⟩ := ih s1 (log ++ [d]) d hstep hrest
    refine ⟨c', ?_⟩
    rcases hr : runTimes s1 e rest with ⟨s2, times⟩
    rw [hr] at hfin
    dsimp only at hfin
    simp only [runTimes, hw, hr]
    simpa [List.append_assoc] using hfin

theorem runTimes_invariant (e : EndpointType) :
    ∀ (ts : List Nat) (s : RLState), RLInvariant s →
      RLInvariant (runTimes s e ts).1 := by
  intro ts
  induction ts with
  | nil => exact fun s hs => hs
  | cons t rest ih =>
    intro s hs
    have h1 := waitForSlot_invariant s e t hs
    rcases hw : waitForSlot s e t with ⟨s1, d⟩
    rw [hw] at h1
    rcases hr : runTimes s1 e rest with ⟨s2, times⟩
    have := ih s1 h1
    rw [hr] at this
    simp only [runTimes, hw, hr]
    exact this

theorem init_invariant : RLInvariant RLState.init := by
  intro e w h
  simp [RLState.init] at h

/-- C1: across every sequence of `waitForSlot` calls, every live window's
used-count stays within its category's `maxRequests`; and for sequential
runs against one category, the live window's count equals the number of
admissions resolved within that window's span — so at most `maxRequests`
admissions happen within one fixed window. -/
theorem rateLimiter_window_bound :
    (∀ (s : RLState) (calls : List (EndpointType × Nat)),
      RLInvariant s → RLInvariant (runCalls s calls)) ∧
    (∀ (e : EndpointType) (ts : List Nat) (w : RateWindow),
      ArrivalsFrom e RLState.init 0 ts →
      (runTimes RLState.init e ts).1 e = some w →
      countIn (runTimes RLState.init e ts).2
          (w.resetTime - (limits e).windowMs) w.resetTime = w.requests ∧
      w.requests ≤ (limits e).maxRequests) := by
  constructor
  · exact fun s calls hs => runCalls_invariant calls s hs
  · intro e ts w harr hw
    have hacc0 : WinAccount e RLState.init [] 0 := by
      refine ⟨fun _ => rfl, fun w hw => ?_⟩
      simp [RLState.init] at hw
    obtain ⟨c', hfin⟩ := runTimes_account e ts RLState.init [] 0 hacc0 harr
    obtain ⟨hWR, hcr, hbelow, hcount⟩ := hfin.2 w hw
    refine ⟨by simpa using hcount, ?_⟩
    exact runTimes_invariant e ts RLState.init init_invariant e w hw

theorem rateLimiter_window_bound_witness :
    countIn (runTimes RLState.init .general [5]).2
        ((⟨1, 60005⟩ : RateWindow).resetTime - (limits .general).windowMs)
        (⟨1, 60005⟩ : RateWindow).resetTime = (⟨1, 60005⟩ : RateWindow).requests ∧
    (⟨1, 60005⟩ : RateWindow).requests ≤ (limits .general).maxRequests :=
  rateLimiter_window_bound.2 .general [5] ⟨1, 60005⟩ ⟨by decide, trivial⟩ rfl

end Capacities
